import Mathlib

/-!
Shallow embedding of the voxel-world layer of the `cuber` repository
(`src/voxler/world.py` and `src/voxler/voxels.py`).

The CAD kernel, appearance registry and progress dialog are modelled as the
external collaborators they are: a created/deleted body is recorded as an
`Event`, the design appearance collection is a list of names (`Doc`), and
the dialog is a cancellation schedule polled once per loop iteration.
Python exceptions are modelled by the `Res`/`Except` error results; an error
result carries the state at the moment the exception propagates.
-/

set_option maxHeartbeats 1000000

namespace Voxler

/-- Game coordinates `(x_game, y_game, z_game)` of a voxel, the keys of
`VoxelWorld._voxels`. -/
abbrev Coord := Int × Int × Int

/-- An `(r, g, b, o)` color tuple. -/
abbrev Color := Nat × Nat × Nat × Nat

/-- The Python exception classes that the modelled code can raise. -/
inductive PyErr where
  | valueError
  | typeError
  | attributeError
  | runtimeError
deriving DecidableEq, Repr

/-- The two concrete voxel classes of `voxels.py` that
`VoxelWorld.add_voxel` dispatches to. -/
inductive VoxelClass where
  | directCube
  | directSphere
deriving DecidableEq, Repr

/-- Geometry-kernel mutations performed against the CAD document.  A
`createBody` event stands for the whole `bRepBodies.add` call of
`_create_body` (which also applies the initial appearance and name to the
new body); the two setter events record the body writes done by the
`appearance`/`color` setters (`_body.appearance = ...`) and the `name`
setter (`_body.name = ...`). -/
inductive Event where
  | createBody (c : Coord)
  | deleteBody (c : Coord)
  | setBodyAppearance (c : Coord)
  | setBodyName (c : Coord)
deriving DecidableEq, Repr

/-- One value of a world definition dict:
`{"shape": shape, "color": (r,g,b,o), "appearance": appearance, "name": name}`. -/
structure VoxelDef where
  shape : String
  color : Option Color
  appearance : String
  name : String
deriving DecidableEq, Repr

/-- A live voxel instance as stored in `VoxelWorld._voxels`.  `color` is the
value of `self._color`, which is always a tuple after construction
(`tuple(color)` raises on `None`).  `stale` models a body that an external
process has already invalidated, so that `self._body.deleteMe()` raises
`RuntimeError`. -/
structure Voxel where
  cls : VoxelClass
  center : Rat × Rat × Rat
  sideLength : Rat
  color : Color
  appearance : String
  name : String
  stale : Bool
deriving DecidableEq, Repr

/-- The state of a `VoxelWorld`: grid size, offset, and the `_voxels` dict
represented as an insertion-ordered association list (a Python dict keeps
insertion order, assignment to an existing key keeps its position, and keys
are unique). -/
structure World where
  gridSize : Rat
  offset : Int × Int × Int
  voxels : List (Coord × Voxel)
deriving DecidableEq, Repr

/-- The design appearance collection (`design.appearances`), by name. -/
structure Doc where
  appearances : List String
deriving DecidableEq, Repr

/-- Observable state of the progress dialog after `update` returns. -/
structure DialogState where
  visible : Bool
  progressValue : Nat
  maxValue : Nat
deriving DecidableEq, Repr

/-- The progress dialog collaborator: `wasCancelled i` is the value the
dialog reports when polled at loop iteration `i`. -/
structure Dialog where
  wasCancelled : Nat → Bool

/-- Ambient host state: whether the active design is in
`ParametricDesignType` (in which case `DirectVoxel.__init__` raises). -/
structure Env where
  parametricDesign : Bool
deriving DecidableEq, Repr

/-- Result of a world operation: either a normal return or a propagating
Python exception, in both cases together with the world state, the document
appearance collection and the geometry events at that moment. -/
inductive Res (α : Type) where
  | ok (a : α) (w : World) (doc : Doc) (ev : List Event)
  | err (e : PyErr) (w : World) (doc : Doc) (ev : List Event)
deriving DecidableEq, Repr

/-- Whether a result is a propagating exception. -/
def Res.raised : Res α → Bool
  | .ok .. => false
  | .err .. => true

/-- Result type of `update`: it returns `not cancelled`; when the dialog branch ran, the final
dialog state is observable as well. -/
abbrev UpdOut := Bool × Option DialogState

/-! ### Dict primitives on the `_voxels` association list -/

/-- Python `self._voxels.get(coordinates)`. -/
def lookupA : List (Coord × Voxel) → Coord → Option Voxel
  | [], _ => none
  | (k, v) :: t, c => if c = k then some v else lookupA t c

/-- Python `self._voxels[coordinates] = v`: replace in place if the key is present,
append otherwise (Python dict semantics). -/
def setA : List (Coord × Voxel) → Coord → Voxel → List (Coord × Voxel)
  | [], c, v => [(c, v)]
  | (k, v0) :: t, c, v => if c = k then (c, v) :: t else (k, v0) :: setA t c v

/-- Python `self._voxels.pop(coordinates)` (the key is unique in a dict). -/
def eraseA : List (Coord × Voxel) → Coord → List (Coord × Voxel)
  | [], _ => []
  | (k, v0) :: t, c => if c = k then t else (k, v0) :: eraseA t c

/-- Boolean membership test on a key list. -/
def containsA (l : List Coord) (c : Coord) : Bool :=
  l.any (fun x => decide (x = c))

/-! ### Voxel layer (`voxels.py`) -/

/-- The deterministic name of a tinted appearance variant:
`f"{appearance}__custom_r{r}g{g}b{b}o{o}"`. -/
def coloredName (appearance : String) (col : Color) : String :=
  appearance ++ "__custom_" ++ "r" ++ toString col.1 ++ "g" ++ toString col.2.1
    ++ "b" ++ toString col.2.2.1 ++ "o" ++ toString col.2.2.2

/-- Model of `Voxel._get_appearance`: with no color the base library appearance is
used as found in the design; with a color, the tinted variant is looked up
by its deterministic name and created by copy only when absent.  Returns the
name of the appearance applied to the body, the updated design appearance
collection, and whether a copy was added.  (Resolving the base appearance in
the "Fusion 360 Appearance Library" is collaborator behavior and modelled as
always succeeding.) -/
def getAppearance (doc : Doc) (appearance : String) (color : Option Color) :
    String × Doc × Bool :=
  match color with
  | none => (appearance, doc, false)
  | some col =>
    let n := coloredName appearance col
    if n ∈ doc.appearances then (n, doc, false)
    else (n, ⟨n :: doc.appearances⟩, true)

/-- Construction of a `DirectCube`/`DirectSphere`
(`DirectVoxel.__init__` → `Voxel.__init__` → `_create_body`).  Steps in
source order: the parametric-design check raises `RuntimeError`;
`self._color = tuple(color)` raises `TypeError` when `color` is `None`;
then `_create_body` adds the body to the component (the `Bool` component
records that this happened) and applies `self._get_appearance()` to it; the
final statement of `_create_body`, `new_body.name = self._name`, raises
`AttributeError`, because `DirectVoxel.__init__` assigns `self._name` only
after `super().__init__()` (which runs `_create_body`) has returned.  So
construction never completes; the `Except` is always an error. -/
def makeVoxel (env : Env) (_cls : VoxelClass) (_center : Rat × Rat × Rat)
    (_side : Rat) (color : Option Color) (appearance : String) (doc : Doc) :
    Except PyErr Voxel × Doc × Bool :=
  if env.parametricDesign then (.error .runtimeError, doc, false)
  else
    match color with
    | none => (.error .typeError, doc, false)
    | some col =>
      (.error .attributeError, (getAppearance doc appearance (some col)).2.1, true)

/-- Model of `Voxel.delete`: `self._body.deleteMe()`, which raises `RuntimeError`
when the body has already been invalidated externally. -/
def voxelDelete (v : Voxel) : Except PyErr Unit :=
  if v.stale then .error .runtimeError else .ok ()

/-- Attribute access `voxel.shape`.  No class in `voxels.py` (`Voxel`,
`DirectVoxel`, `DirectCube`, `DirectSphere`) defines a `shape` attribute or
property, so the access raises `AttributeError`. -/
def shapeAttr (_ : Voxel) : Except PyErr String := .error .attributeError

/-! ### World layer (`world.py`) -/

/-- Model of `VoxelWorld.get_real_center`: `(c + o) * grid_size` per axis. -/
def getRealCenter (w : World) (c : Coord) : Rat × Rat × Rat :=
  (((c.1 : Rat) + (w.offset.1 : Rat)) * w.gridSize,
   ((c.2.1 : Rat) + (w.offset.2.1 : Rat)) * w.gridSize,
   ((c.2.2 : Rat) + (w.offset.2.2 : Rat)) * w.gridSize)

/-- The `if shape == "cube" ... elif shape == "sphere" ... else raise`
dispatch at the top of `add_voxel`. -/
def classOfShape (shape : String) : Option VoxelClass :=
  if shape = "cube" then some .directCube
  else if shape = "sphere" then some .directSphere
  else none

/-- The `DirectVoxel.appearance` setter: no-op when equal, otherwise store
the new name and write `self._body.appearance = self._get_appearance()`
(resolved with the stored color).  Returns the updated voxel, the updated
design appearance collection and the body events. -/
def setAppearanceF (doc : Doc) (c : Coord) (v : Voxel) (app : String) :
    Voxel × Doc × List Event :=
  if app ≠ v.appearance then
    ({ v with appearance := app }, (getAppearance doc app (some v.color)).2.1,
      [Event.setBodyAppearance c])
  else (v, doc, [])

/-- The `DirectVoxel.color` setter after `tuple(new_color)` succeeded:
no-op when equal, otherwise store the new color and write
`self._body.appearance = self._get_appearance()`. -/
def setColorF (doc : Doc) (c : Coord) (v : Voxel) (cc : Color) :
    Voxel × Doc × List Event :=
  if v.color ≠ cc then
    ({ v with color := cc }, (getAppearance doc v.appearance (some cc)).2.1,
      [Event.setBodyAppearance c])
  else (v, doc, [])

/-- The `DirectVoxel.name` setter: no-op when equal, otherwise store the
new name and write `self._body.name = new_name`. -/
def setNameF (c : Coord) (v : Voxel) (nm : String) : Voxel × List Event :=
  if v.name ≠ nm then ({ v with name := nm }, [Event.setBodyName c]) else (v, [])

/-- The update branch of `add_voxel` for a voxel of the same class:
`voxel.appearance = appearance; voxel.color = color; voxel.name = name`,
in that order.  The `color` setter first evaluates `tuple(new_color)`,
which raises `TypeError` on `None` — after the appearance setter has
already run and mutated the stored voxel in place. -/
def updateFields (w : World) (doc : Doc) (c : Coord) (v : Voxel)
    (color : Option Color) (app nm : String) : Res Unit :=
  let s1 := setAppearanceF doc c v app
  match color with
  | none => .err .typeError { w with voxels := setA w.voxels c s1.1 } s1.2.1 s1.2.2
  | some cc =>
    let s2 := setColorF s1.2.1 c s1.1 cc
    let s3 := setNameF c s2.1 nm
    .ok () { w with voxels := setA w.voxels c s3.1 } s2.2.1 (s1.2.2 ++ s2.2.2 ++ s3.2)

/-- Model of `VoxelWorld.add_voxel`.  Shape dispatch first (raising `ValueError`
before any mutation); then, if a voxel of a different class occupies the
coordinate, it is deleted — with no try/except, so a `RuntimeError` from
`deleteMe` propagates — and popped; a missing voxel is (re)created, an
existing same-class voxel has its appearance/color/name setters applied. -/
def addVoxel (env : Env) (w : World) (doc : Doc) (c : Coord) (shape : String)
    (color : Option Color) (appearance name : String) : Res Unit :=
  match classOfShape shape with
  | none => .err .valueError w doc []
  | some cls =>
    match lookupA w.voxels c with
    | some v =>
      if v.cls ≠ cls then
        match voxelDelete v with
        | .error e => .err e w doc []
        | .ok _ =>
          let w1 : World := { w with voxels := eraseA w.voxels c }
          match makeVoxel env cls (getRealCenter w c) w.gridSize color appearance doc with
          | (.error e, doc1, created) =>
            .err e w1 doc1 (if created then [Event.deleteBody c, Event.createBody c]
              else [Event.deleteBody c])
          | (.ok v1, doc1, created) =>
            .ok () { w1 with voxels := setA w1.voxels c v1 } doc1
              (if created then [Event.deleteBody c, Event.createBody c]
                else [Event.deleteBody c])
      else updateFields w doc c v color appearance name
    | none =>
      match makeVoxel env cls (getRealCenter w c) w.gridSize color appearance doc with
      | (.error e, doc1, created) =>
        .err e w doc1 (if created then [Event.createBody c] else [])
      | (.ok v1, doc1, created) =>
        .ok () { w with voxels := setA w.voxels c v1 } doc1
          (if created then [Event.createBody c] else [])

/-- Model of `VoxelWorld.delete_voxel`: the `RuntimeError` of a failing
`voxel.delete()` is caught and logged, the entry is popped in every case
where it existed, and the boolean success is returned. -/
def deleteVoxel (w : World) (doc : Doc) (c : Coord) : Res Bool :=
  match lookupA w.voxels c with
  | none => .ok false w doc []
  | some v =>
    match voxelDelete v with
    | .error _ => .ok false { w with voxels := eraseA w.voxels c } doc []
    | .ok _ => .ok true { w with voxels := eraseA w.voxels c } doc [Event.deleteBody c]

/-- A sequence of `delete_voxel` calls over a snapshot of coordinates (the
deletion loops of `clear` and `update`); an exception would propagate. -/
def deletePhase : List Coord → World → Doc → List Event → Res Unit
  | [], w, doc, ev => .ok () w doc ev
  | c :: t, w, doc, ev =>
    match deleteVoxel w doc c with
    | .err e w1 doc1 ev1 => .err e w1 doc1 (ev ++ ev1)
    | .ok _ w1 doc1 ev1 => deletePhase t w1 doc1 (ev ++ ev1)

/-- Model of `VoxelWorld.get_coordinates`. -/
def getCoordinates (w : World) : List Coord := w.voxels.map Prod.fst

/-- Model of `VoxelWorld.get_voxel`. -/
def getVoxel (w : World) (c : Coord) : Option Voxel := lookupA w.voxels c

/-- Model of `VoxelWorld.clear`: `delete_voxel` over a snapshot of all keys. -/
def clearAll (w : World) (doc : Doc) : Res Unit :=
  deletePhase (getCoordinates w) w doc []

/-- Model of `VoxelWorld._number_of_changes`: a coordinate missing from the world
counts as a change; for a present voxel the comparison `voxel.shape != ...`
accesses the nonexistent `shape` attribute and raises `AttributeError`
(`not voxel` short-circuits only for absent voxels). -/
def numberOfChangesAux (w : World) : List (Coord × VoxelDef) → Nat → Except PyErr Nat
  | [], i => .ok i
  | (c, _) :: t, i =>
    match lookupA w.voxels c with
    | none => numberOfChangesAux w t (i + 1)
    | some _ => .error .attributeError

/-- Model of `VoxelWorld._number_of_changes` with the initial counter. -/
def numberOfChanges (w : World) (d : List (Coord × VoxelDef)) : Except PyErr Nat :=
  numberOfChangesAux w d 0

/-- The per-coordinate `add_voxel` loop body shared by both branches of
`update` (`self.add_voxel(coordinates=coord, **voxel_def)` for each item,
in dict order, propagating exceptions). -/
def addSeq (env : Env) : List (Coord × VoxelDef) → World → Doc → List Event → Res Unit
  | [], w, doc, ev => .ok () w doc ev
  | (c, vd) :: t, w, doc, ev =>
    match addVoxel env w doc c vd.shape vd.color vd.appearance vd.name with
    | .err e w1 doc1 ev1 => .err e w1 doc1 (ev ++ ev1)
    | .ok _ w1 doc1 ev1 => addSeq env t w1 doc1 (ev ++ ev1)

/-- The eager (no-dialog) branch of `update`: run all `add_voxel` calls and
return `True` (never cancelled, no dialog state touched). -/
def updLoopP (env : Env) (items : List (Coord × VoxelDef)) (w : World) (doc : Doc)
    (ev : List Event) : Res UpdOut :=
  match addSeq env items w doc ev with
  | .err e w1 doc1 ev1 => .err e w1 doc1 ev1
  | .ok _ w1 doc1 ev1 => .ok (true, none) w1 doc1 ev1

/-- The dialog branch of `update` after `progress_dialog.show(...)`:
polls `wasCancelled` before each item, processes the item, sets
`progressValue` to the number of processed items, and hides the dialog on
both normal exit and cancellation (`i` is both the next poll index and the
current progress value; `m` is the dialog maximum `len(new_world_def)`). -/
def updLoopD (env : Env) (dlg : Dialog) (m : Nat) :
    Nat → List (Coord × VoxelDef) → World → Doc → List Event → Res UpdOut
  | i, [], w, doc, ev => .ok (true, some ⟨false, i, m⟩) w doc ev
  | i, (c, vd) :: t, w, doc, ev =>
    if dlg.wasCancelled i then .ok (false, some ⟨false, i, m⟩) w doc ev
    else
      match addVoxel env w doc c vd.shape vd.color vd.appearance vd.name with
      | .err e w1 doc1 ev1 => .err e w1 doc1 (ev ++ ev1)
      | .ok _ w1 doc1 ev1 => updLoopD env dlg m (i + 1) t w1 doc1 (ev ++ ev1)

/-- Model of `VoxelWorld.update`: unconditionally delete every present coordinate
missing from the new world definition, then apply `add_voxel` per desired
coordinate — eagerly when no dialog was passed or the change estimate is
below the threshold, else under the progress dialog.
`_number_of_changes` is consulted only when both a dialog and a threshold
were given. -/
def update (env : Env) (w : World) (doc : Doc) (d : List (Coord × VoxelDef))
    (pd : Option Dialog) (cfd : Option Nat) : Res UpdOut :=
  let dels := (getCoordinates w).filter (fun c => !containsA (d.map Prod.fst) c)
  match deletePhase dels w doc [] with
  | .err e w1 doc1 ev1 => .err e w1 doc1 ev1
  | .ok _ w1 doc1 ev1 =>
    match pd with
    | none => updLoopP env d w1 doc1 ev1
    | some dlg =>
      match cfd with
      | none => updLoopD env dlg d.length 0 d w1 doc1 ev1
      | some t =>
        match numberOfChanges w1 d with
        | .error e => .err e w1 doc1 ev1
        | .ok n =>
          if n < t then updLoopP env d w1 doc1 ev1
          else updLoopD env dlg d.length 0 d w1 doc1 ev1

/-- Model of `VoxelWorld.get_current_world_def` over the `_voxels` items: reading
`voxel.shape` raises `AttributeError` at the first entry. -/
def worldDefOf : List (Coord × Voxel) → Except PyErr (List (Coord × VoxelDef))
  | [] => .ok []
  | (c, v) :: t =>
    match shapeAttr v with
    | .error e => .error e
    | .ok s =>
      match worldDefOf t with
      | .error e => .error e
      | .ok r => .ok ((c, ⟨s, some v.color, v.appearance, v.name⟩) :: r)

/-- Model of `VoxelWorld.get_current_world_def`. -/
def getCurrentWorldDef (w : World) : Except PyErr (List (Coord × VoxelDef)) :=
  worldDefOf w.voxels

/-- Model of `VoxelWorld._rebuild`: snapshot the current world definition, `clear`,
then `update` with the snapshot (threshold argument left at `None`). -/
def rebuild (env : Env) (w : World) (doc : Doc) (pd : Option Dialog) : Res UpdOut :=
  match getCurrentWorldDef w with
  | .error e => .err e w doc []
  | .ok d =>
    match clearAll w doc with
    | .err e w1 doc1 ev1 => .err e w1 doc1 ev1
    | .ok _ w1 doc1 ev1 =>
      match update env w1 doc1 d pd none with
      | .err e w2 doc2 ev2 => .err e w2 doc2 (ev1 ++ ev2)
      | .ok out w2 doc2 ev2 => .ok out w2 doc2 (ev1 ++ ev2)

/-- Model of `VoxelWorld.set_grid_size`: plain `return` (Python `None`) when the new
size equals the current one; otherwise store the new size, then `_rebuild`. -/
def setGridSize (env : Env) (w : World) (doc : Doc) (g : Rat) (pd : Option Dialog) :
    Res (Option Bool) :=
  if g = w.gridSize then .ok none w doc []
  else
    let w1 : World := { w with gridSize := g }
    match rebuild env w1 doc pd with
    | .err e w2 doc2 ev2 => .err e w2 doc2 ev2
    | .ok out w2 doc2 ev2 => .ok (some out.1) w2 doc2 ev2

/-- A live voxel realizes one entry of a world definition: its class is the
one `add_voxel` dispatches the shape token to, and color, appearance and
name agree (`color` in a definition is never `None` for a realizable entry,
since the stored `_color` is always a tuple). -/
def voxelMatches (v : Voxel) (vd : VoxelDef) : Prop :=
  classOfShape vd.shape = some v.cls ∧ vd.color = some v.color ∧
    v.appearance = vd.appearance ∧ v.name = vd.name

instance (v : Voxel) (vd : VoxelDef) : Decidable (voxelMatches v vd) := by
  unfold voxelMatches; infer_instance

instance {ε α : Type} [DecidableEq ε] [DecidableEq α] : DecidableEq (Except ε α) := fun x y =>
  match x, y with
  | .ok a, .ok b => if h : a = b then .isTrue (by rw [h]) else .isFalse (by simp [h])
  | .error a, .error b => if h : a = b then .isTrue (by rw [h]) else .isFalse (by simp [h])
  | .ok _, .error _ => .isFalse (by simp)
  | .error _, .ok _ => .isFalse (by simp)

/-! ### Concrete states used to evaluate the model -/

/-- A host environment in direct (non-parametric) design mode. -/
def exEnv : Env := ⟨false⟩

/-- A design whose appearance collection already holds the tinted variant of
"Prism-256" for color `(255, 0, 0, 255)`. -/
def exDoc : Doc := ⟨["Prism-256__custom_r255g0b0o255"]⟩

/-- A live red cube voxel at the origin with a valid body. -/
def exCube : Voxel :=
  ⟨.directCube, (0, 0, 0), 1, (255, 0, 0, 255), "Prism-256", "voxel", false⟩

/-- A cube voxel whose body has been invalidated externally (`deleteMe` will
raise `RuntimeError`). -/
def exStale : Voxel :=
  ⟨.directCube, (0, 0, 0), 1, (255, 0, 0, 255), "Prism-256", "voxel", true⟩

/-- A world holding the single live cube `exCube` at the origin. -/
def exWorld : World := ⟨1, (0, 0, 0), [((0, 0, 0), exCube)]⟩

/-- A world holding `exCube` at the origin and at `(5, 0, 0)`. -/
def exWorld2 : World := ⟨1, (0, 0, 0), [((0, 0, 0), exCube), ((5, 0, 0), exCube)]⟩

/-- A world holding the stale cube `exStale` at the origin. -/
def exWorldStale : World := ⟨1, (0, 0, 0), [((0, 0, 0), exStale)]⟩

/-- A world holding the stale cube `exStale` at `(1, 2, 3)`. -/
def exWorldStaleB : World := ⟨1, (0, 0, 0), [((1, 2, 3), exStale)]⟩

/-- A world with no voxels. -/
def exWorldEmpty : World := ⟨1, (0, 0, 0), []⟩

/-- The world definition realized by `exWorld`: a red "Prism-256" cube named
"voxel" at the origin. -/
def exDef : List (Coord × VoxelDef) :=
  [((0, 0, 0), ⟨"cube", some (255, 0, 0, 255), "Prism-256", "voxel"⟩)]

/-- Definition `exDef` with only the shape at the origin changed from cube to sphere. -/
def exDefSphere : List (Coord × VoxelDef) :=
  [((0, 0, 0), ⟨"sphere", some (255, 0, 0, 255), "Prism-256", "voxel"⟩)]

/-- A progress dialog whose cancel button is pressed from the start. -/
def exDlgCancel : Dialog := ⟨fun _ => true⟩

/-! ### Properties of the dict primitives -/

theorem lookupA_setA_self (l : List (Coord × Voxel)) (c : Coord) (v : Voxel) :
    lookupA (setA l c v) c = some v := by
  induction l with
  | nil => simp [setA, lookupA]
  | cons p t ih =>
    obtain ⟨k, v0⟩ := p
    by_cases h : c = k <;> simp [setA, lookupA, h, ih]

theorem lookupA_setA_ne (l : List (Coord × Voxel)) (c x : Coord) (v : Voxel)
    (h : x ≠ c) : lookupA (setA l c v) x = lookupA l x := by
  induction l with
  | nil => simp [setA, lookupA, h]
  | cons p t ih =>
    obtain ⟨k, v0⟩ := p
    by_cases hk : c = k
    · subst hk; simp [setA, lookupA, h, ih]
    · by_cases hx : x = k <;> simp [setA, lookupA, hk, hx, ih]

theorem mem_keys_setA (l : List (Coord × Voxel)) (c x : Coord) (v : Voxel) :
    x ∈ (setA l c v).map Prod.fst ↔ x = c ∨ x ∈ l.map Prod.fst := by
  induction l with
  | nil => simp [setA]
  | cons p t ih =>
    obtain ⟨k, v0⟩ := p
    by_cases h : c = k
    · subst h
      rw [setA, if_pos rfl]
      simp only [List.map_cons, List.mem_cons]
      tauto
    · rw [setA, if_neg h]
      simp only [List.map_cons, List.mem_cons, ih]
      tauto

theorem setA_self (l : List (Coord × Voxel)) (c : Coord) (v : Voxel)
    (h : lookupA l c = some v) : setA l c v = l := by
  induction l with
  | nil => simp [lookupA] at h
  | cons p t ih =>
    obtain ⟨k, v0⟩ := p
    by_cases hk : c = k
    · subst hk
      simp [lookupA] at h
      simp [setA, h]
    · simp [lookupA, hk] at h
      simp [setA, hk, ih h]

theorem lookupA_eq_none_iff (l : List (Coord × Voxel)) (c : Coord) :
    lookupA l c = none ↔ c ∉ l.map Prod.fst := by
  induction l with
  | nil => simp [lookupA]
  | cons p t ih =>
    obtain ⟨k, v0⟩ := p
    by_cases h : c = k <;> simp [lookupA, h, ih]

theorem lookupA_mem_keys (l : List (Coord × Voxel)) (c : Coord) (v : Voxel)
    (h : lookupA l c = some v) : c ∈ l.map Prod.fst := by
  by_contra hc
  rw [← lookupA_eq_none_iff] at hc
  rw [h] at hc
  cases hc

theorem keys_eraseA_subset (l : List (Coord × Voxel)) (c x : Coord)
    (h : x ∈ (eraseA l c).map Prod.fst) : x ∈ l.map Prod.fst := by
  induction l with
  | nil => simp [eraseA] at h
  | cons p t ih =>
    obtain ⟨k, v0⟩ := p
    by_cases hk : c = k
    · rw [eraseA, if_pos hk] at h
      simp only [List.map_cons, List.mem_cons]
      exact Or.inr h
    · rw [eraseA, if_neg hk] at h
      simp only [List.map_cons, List.mem_cons] at h ⊢
      rcases h with h | h
      · exact Or.inl h
      · exact Or.inr (ih h)

theorem mem_keys_eraseA (l : List (Coord × Voxel)) (c x : Coord)
    (hN : (l.map Prod.fst).Nodup) :
    x ∈ (eraseA l c).map Prod.fst ↔ x ∈ l.map Prod.fst ∧ x ≠ c := by
  induction l with
  | nil => simp [eraseA]
  | cons p t ih =>
    obtain ⟨k, v0⟩ := p
    simp only [List.map_cons, List.nodup_cons] at hN
    obtain ⟨hk, hN⟩ := hN
    by_cases hck : c = k
    · subst hck
      rw [eraseA, if_pos rfl]
      simp only [List.map_cons, List.mem_cons]
      constructor
      · intro hx
        refine ⟨Or.inr hx, ?_⟩
        rintro rfl; exact hk hx
      · rintro ⟨rfl | hx, hne⟩
        · exact absurd rfl hne
        · exact hx
    · rw [eraseA, if_neg hck]
      simp only [List.map_cons, List.mem_cons, ih hN]
      constructor
      · rintro (rfl | ⟨hx, hne⟩)
        · exact ⟨Or.inl rfl, fun hc => hck hc.symm⟩
        · exact ⟨Or.inr hx, hne⟩
      · rintro ⟨rfl | hx, hne⟩
        · exact Or.inl rfl
        · exact Or.inr ⟨hx, hne⟩

theorem nodup_keys_eraseA (l : List (Coord × Voxel)) (c : Coord)
    (hN : (l.map Prod.fst).Nodup) : ((eraseA l c).map Prod.fst).Nodup := by
  induction l with
  | nil => simp [eraseA]
  | cons p t ih =>
    obtain ⟨k, v0⟩ := p
    simp only [List.map_cons, List.nodup_cons] at hN
    obtain ⟨hk, hN⟩ := hN
    by_cases hck : c = k
    · rw [eraseA, if_pos hck]
      exact hN
    · rw [eraseA, if_neg hck]
      simp only [List.map_cons, List.nodup_cons]
      exact ⟨fun hmem => hk (keys_eraseA_subset t c k hmem), ih hN⟩

theorem lookupA_eraseA_self (l : List (Coord × Voxel)) (c : Coord)
    (hN : (l.map Prod.fst).Nodup) : lookupA (eraseA l c) c = none := by
  rw [lookupA_eq_none_iff, mem_keys_eraseA l c c hN]
  simp

theorem nodup_keys_setA (l : List (Coord × Voxel)) (c : Coord) (v : Voxel)
    (hN : (l.map Prod.fst).Nodup) : ((setA l c v).map Prod.fst).Nodup := by
  induction l with
  | nil => simp [setA]
  | cons p t ih =>
    obtain ⟨k, v0⟩ := p
    simp only [List.map_cons, List.nodup_cons] at hN
    obtain ⟨hk, hN⟩ := hN
    by_cases hck : c = k
    · subst hck
      rw [setA, if_pos rfl]
      simp only [List.map_cons, List.nodup_cons]
      exact ⟨hk, hN⟩
    · rw [setA, if_neg hck]
      simp only [List.map_cons, List.nodup_cons]
      constructor
      · intro hmem
        rw [mem_keys_setA] at hmem
        rcases hmem with rfl | hmem
        · exact hck rfl
        · exact hk hmem
      · exact ih hN

theorem containsA_iff (l : List Coord) (c : Coord) : containsA l c = true ↔ c ∈ l := by
  simp only [containsA, List.any_eq_true, decide_eq_true_eq]
  constructor
  · rintro ⟨x, hx, rfl⟩; exact hx
  · intro h; exact ⟨c, h, rfl⟩

/-! ### Properties of the voxel layer -/

theorem makeVoxel_error (env : Env) (cls : VoxelClass) (center : Rat × Rat × Rat)
    (side : Rat) (color : Option Color) (app : String) (doc : Doc) :
    ∃ e doc1 b, makeVoxel env cls center side color app doc = (.error e, doc1, b) := by
  unfold makeVoxel
  by_cases hp : env.parametricDesign
  · simp [hp]
  · rcases color with _ | cc <;> simp [hp]

theorem setAppearanceF_voxel (doc : Doc) (c : Coord) (v : Voxel) (app : String) :
    (setAppearanceF doc c v app).1 = { v with appearance := app } := by
  unfold setAppearanceF
  by_cases h : app = v.appearance
  · rw [if_neg (by simp [h])]
    subst h
    rfl
  · rw [if_pos h]

theorem setColorF_voxel (doc : Doc) (c : Coord) (v : Voxel) (cc : Color) :
    (setColorF doc c v cc).1 = { v with color := cc } := by
  unfold setColorF
  by_cases h : v.color = cc
  · rw [if_neg (by simp [h])]
    rw [← h]
  · rw [if_pos h]

theorem setNameF_voxel (c : Coord) (v : Voxel) (nm : String) :
    (setNameF c v nm).1 = { v with name := nm } := by
  unfold setNameF
  by_cases h : v.name = nm
  · rw [if_neg (by simp [h])]
    rw [← h]
  · rw [if_pos h]

theorem setAppearanceF_noop (doc : Doc) (c : Coord) (v : Voxel) (app : String)
    (h : v.appearance = app) : setAppearanceF doc c v app = (v, doc, []) := by
  unfold setAppearanceF
  rw [if_neg (by simp [h])]

theorem setColorF_noop (doc : Doc) (c : Coord) (v : Voxel) (cc : Color)
    (h : v.color = cc) : setColorF doc c v cc = (v, doc, []) := by
  unfold setColorF
  rw [if_neg (by simp [h])]

theorem setNameF_noop (c : Coord) (v : Voxel) (nm : String)
    (h : v.name = nm) : setNameF c v nm = (v, []) := by
  unfold setNameF
  rw [if_neg (by simp [h])]

theorem updateFields_ok_elim {w : World} {doc : Doc} {c : Coord} {v : Voxel}
    {color : Option Color} {app nm : String} {a : Unit} {w1 : World} {doc1 : Doc}
    {ev1 : List Event} (h : updateFields w doc c v color app nm = .ok a w1 doc1 ev1) :
    ∃ cc v3, color = some cc ∧ w1 = { w with voxels := setA w.voxels c v3 } ∧
      v3.cls = v.cls ∧ v3.appearance = app ∧ v3.color = cc ∧ v3.name = nm := by
  unfold updateFields at h
  rcases color with _ | cc
  · exact absurd h (by simp)
  · simp only [setNameF_voxel, setColorF_voxel, setAppearanceF_voxel] at h
    obtain ⟨-, hw, -, -⟩ := Res.ok.inj h
    exact ⟨cc, _, rfl, hw.symm, rfl, rfl, rfl, rfl⟩

theorem updateFields_noop (w : World) (doc : Doc) (c : Coord) (v : Voxel) (cc : Color)
    (app nm : String) (hl : lookupA w.voxels c = some v)
    (h1 : v.appearance = app) (h2 : v.color = cc) (h3 : v.name = nm) :
    updateFields w doc c v (some cc) app nm = .ok () w doc [] := by
  unfold updateFields
  simp only [setAppearanceF_noop doc c v app h1, setColorF_noop doc c v cc h2,
    setNameF_noop c v nm h3, List.append_nil, List.nil_append]
  rw [setA_self w.voxels c v hl]

/-! ### Properties of `add_voxel` -/

theorem addVoxel_ok_elim {env : Env} {w : World} {doc : Doc} {c : Coord}
    {shape : String} {color : Option Color} {app nm : String} {a : Unit}
    {w1 : World} {doc1 : Doc} {ev1 : List Event}
    (h : addVoxel env w doc c shape color app nm = .ok a w1 doc1 ev1) :
    ∃ v v3 cc, lookupA w.voxels c = some v ∧ classOfShape shape = some v.cls ∧
      color = some cc ∧ w1 = { w with voxels := setA w.voxels c v3 } ∧
      voxelMatches v3 ⟨shape, color, app, nm⟩ := by
  unfold addVoxel at h
  split at h
  · cases h
  · rename_i cls hcs
    split at h
    · rename_i v hl
      split at h
      · -- different class: delete-then-create, but creation always raises
        split at h
        · cases h
        · split at h
          · cases h
          · rename_i v1 d1 created hm
            obtain ⟨e, d2, b, hmE⟩ :=
              makeVoxel_error env cls (getRealCenter w c) w.gridSize color app doc
            rw [hmE] at hm
            simp at hm
      · -- same class: the update branch
        rename_i hcls
        rw [not_not] at hcls
        obtain ⟨cc, v3, hcol, hw1, e1, e2, e3, e4⟩ := updateFields_ok_elim h
        refine ⟨v, v3, cc, hl, ?_, hcol, hw1, ?_, ?_, e2, e4⟩
        · rw [hcs, hcls]
        · rw [hcs, e1, hcls]
        · rw [hcol, e3]
    · split at h
      · cases h
      · rename_i v1 d1 created hm
        obtain ⟨e, d2, b, hmE⟩ :=
          makeVoxel_error env cls (getRealCenter w c) w.gridSize color app doc
        rw [hmE] at hm
        simp at hm

theorem addVoxel_ok_mem {env : Env} {w : World} {doc : Doc} {c : Coord}
    {shape : String} {color : Option Color} {app nm : String} {a : Unit}
    {w1 : World} {doc1 : Doc} {ev1 : List Event}
    (h : addVoxel env w doc c shape color app nm = .ok a w1 doc1 ev1) :
    c ∈ w.voxels.map Prod.fst := by
  obtain ⟨v, -, -, hl, -⟩ := addVoxel_ok_elim h
  exact lookupA_mem_keys w.voxels c v hl

theorem addVoxel_ok_keys {env : Env} {w : World} {doc : Doc} {c : Coord}
    {shape : String} {color : Option Color} {app nm : String} {a : Unit}
    {w1 : World} {doc1 : Doc} {ev1 : List Event}
    (h : addVoxel env w doc c shape color app nm = .ok a w1 doc1 ev1) :
    ∀ x, x ∈ w1.voxels.map Prod.fst ↔ x ∈ w.voxels.map Prod.fst := by
  obtain ⟨v, v3, cc, hl, -, -, hw1, -⟩ := addVoxel_ok_elim h
  intro x
  rw [hw1]
  show x ∈ (setA w.voxels c v3).map Prod.fst ↔ _
  rw [mem_keys_setA]
  constructor
  · rintro (rfl | hx)
    · exact lookupA_mem_keys w.voxels x v hl
    · exact hx
  · exact Or.inr

theorem addVoxel_ok_lookup_self {env : Env} {w : World} {doc : Doc} {c : Coord}
    {shape : String} {color : Option Color} {app nm : String} {a : Unit}
    {w1 : World} {doc1 : Doc} {ev1 : List Event}
    (h : addVoxel env w doc c shape color app nm = .ok a w1 doc1 ev1) :
    ∃ v3, lookupA w1.voxels c = some v3 ∧ voxelMatches v3 ⟨shape, color, app, nm⟩ := by
  obtain ⟨v, v3, cc, hl, -, -, hw1, hm⟩ := addVoxel_ok_elim h
  refine ⟨v3, ?_, hm⟩
  rw [hw1]
  exact lookupA_setA_self w.voxels c v3

theorem addVoxel_ok_lookup_ne {env : Env} {w : World} {doc : Doc} {c : Coord}
    {shape : String} {color : Option Color} {app nm : String} {a : Unit}
    {w1 : World} {doc1 : Doc} {ev1 : List Event}
    (h : addVoxel env w doc c shape color app nm = .ok a w1 doc1 ev1) :
    ∀ x, x ≠ c → lookupA w1.voxels x = lookupA w.voxels x := by
  obtain ⟨v, v3, cc, hl, -, -, hw1, -⟩ := addVoxel_ok_elim h
  intro x hx
  rw [hw1]
  exact lookupA_setA_ne w.voxels c x v3 hx

theorem addVoxel_noop (env : Env) (w : World) (doc : Doc) (c : Coord) (v : Voxel)
    (shape : String) (color : Option Color) (app nm : String)
    (hl : lookupA w.voxels c = some v)
    (hm : voxelMatches v ⟨shape, color, app, nm⟩) :
    addVoxel env w doc c shape color app nm = .ok () w doc [] := by
  obtain ⟨hcls, hcol, happ, hnm⟩ := hm
  simp only at hcls hcol happ hnm
  simp only [addVoxel, hcls, hl]
  rw [if_neg (by simp)]
  rw [hcol]
  exact updateFields_noop w doc c v v.color app nm hl happ rfl hnm

/-! ### Properties of `delete_voxel` and the deletion loops -/

theorem deleteVoxel_not_raised (w : World) (doc : Doc) (c : Coord) :
    (deleteVoxel w doc c).raised = false := by
  unfold deleteVoxel
  split
  · rfl
  · split <;> rfl

theorem deleteVoxel_ok_elim {w : World} {doc : Doc} {c : Coord} {b : Bool}
    {w1 : World} {doc1 : Doc} {ev1 : List Event}
    (h : deleteVoxel w doc c = .ok b w1 doc1 ev1) :
    doc1 = doc ∧
      ((lookupA w.voxels c = none ∧ w1 = w) ∨
        w1 = { w with voxels := eraseA w.voxels c }) := by
  unfold deleteVoxel at h
  split at h
  · rename_i hl
    obtain ⟨-, hw, hdoc, -⟩ := Res.ok.inj h
    exact ⟨hdoc.symm, Or.inl ⟨hl, hw.symm⟩⟩
  · rename_i v hl
    split at h
    · obtain ⟨-, hw, hdoc, -⟩ := Res.ok.inj h
      exact ⟨hdoc.symm, Or.inr hw.symm⟩
    · obtain ⟨-, hw, hdoc, -⟩ := Res.ok.inj h
      exact ⟨hdoc.symm, Or.inr hw.symm⟩

theorem deletePhase_not_raised (cs : List Coord) (w : World) (doc : Doc)
    (ev : List Event) : (deletePhase cs w doc ev).raised = false := by
  induction cs generalizing w doc ev with
  | nil => rfl
  | cons c t ih =>
    cases hd : deleteVoxel w doc c with
    | err e w1 doc1 ev1 =>
      have hnr := deleteVoxel_not_raised w doc c
      rw [hd] at hnr
      simp [Res.raised] at hnr
    | ok b w1 doc1 ev1 =>
      simp only [deletePhase, hd]
      exact ih w1 doc1 (ev ++ ev1)

theorem deletePhase_ok_keys {cs : List Coord} {w : World} {doc : Doc}
    {ev : List Event} {a : Unit} {w1 : World} {doc1 : Doc} {ev1 : List Event}
    (hN : (w.voxels.map Prod.fst).Nodup)
    (h : deletePhase cs w doc ev = .ok a w1 doc1 ev1) :
    (∀ x, x ∈ w1.voxels.map Prod.fst ↔ (x ∈ w.voxels.map Prod.fst ∧ x ∉ cs)) ∧
      (w1.voxels.map Prod.fst).Nodup := by
  induction cs generalizing w doc ev with
  | nil =>
    obtain ⟨-, hw, -, -⟩ := Res.ok.inj h
    subst hw
    simpa using hN
  | cons c t ih =>
    cases hd : deleteVoxel w doc c with
    | err e w2 doc2 ev2 =>
      have hnr := deleteVoxel_not_raised w doc c
      rw [hd] at hnr
      simp [Res.raised] at hnr
    | ok b w2 doc2 ev2 =>
      simp only [deletePhase, hd] at h
      obtain ⟨-, hcase⟩ := deleteVoxel_ok_elim hd
      rcases hcase with ⟨hnone, rfl⟩ | rfl
      · obtain ⟨hkeys, hnd⟩ := ih hN h
        refine ⟨fun x => ?_, hnd⟩
        rw [hkeys x, List.mem_cons]
        rw [lookupA_eq_none_iff] at hnone
        constructor
        · rintro ⟨hx, hxt⟩
          refine ⟨hx, ?_⟩
          rintro (rfl | hh)
          · exact hnone hx
          · exact hxt hh
        · rintro ⟨hx, hxc⟩
          exact ⟨hx, fun hh => hxc (Or.inr hh)⟩
      · have hN2 : ((eraseA w.voxels c).map Prod.fst).Nodup :=
          nodup_keys_eraseA w.voxels c hN
        obtain ⟨hkeys, hnd⟩ := ih hN2 h
        refine ⟨fun x => ?_, hnd⟩
        rw [hkeys x]
        show x ∈ (eraseA w.voxels c).map Prod.fst ∧ x ∉ t ↔ _
        rw [mem_keys_eraseA w.voxels c x hN, List.mem_cons]
        constructor
        · rintro ⟨⟨hx, hxc⟩, hxt⟩
          refine ⟨hx, ?_⟩
          rintro (rfl | hh)
          · exact hxc rfl
          · exact hxt hh
        · rintro ⟨hx, hxc⟩
          exact ⟨⟨hx, fun hh => hxc (Or.inl hh)⟩, fun hh => hxc (Or.inr hh)⟩

/-! ### Properties of the `add_voxel` loop of `update` -/

theorem addSeq_ok_keys {env : Env} {items : List (Coord × VoxelDef)} {w : World}
    {doc : Doc} {ev : List Event} {a : Unit} {w1 : World} {doc1 : Doc}
    {ev1 : List Event} (h : addSeq env items w doc ev = .ok a w1 doc1 ev1) :
    ∀ x, x ∈ w1.voxels.map Prod.fst ↔ x ∈ w.voxels.map Prod.fst := by
  induction items generalizing w doc ev with
  | nil =>
    obtain ⟨-, hw, -, -⟩ := Res.ok.inj h
    subst hw
    intro x; rfl
  | cons q t ih =>
    obtain ⟨c, vd⟩ := q
    cases hd : addVoxel env w doc c vd.shape vd.color vd.appearance vd.name with
    | err e w2 doc2 ev2 =>
      simp only [addSeq, hd] at h
      cases h
    | ok a2 w2 doc2 ev2 =>
      simp only [addSeq, hd] at h
      intro x
      rw [ih h x, addVoxel_ok_keys hd x]

theorem addSeq_ok_lookup_notin {env : Env} {items : List (Coord × VoxelDef)}
    {w : World} {doc : Doc} {ev : List Event} {a : Unit} {w1 : World} {doc1 : Doc}
    {ev1 : List Event} {c : Coord} (hc : c ∉ items.map Prod.fst)
    (h : addSeq env items w doc ev = .ok a w1 doc1 ev1) :
    lookupA w1.voxels c = lookupA w.voxels c := by
  induction items generalizing w doc ev with
  | nil =>
    obtain ⟨-, hw, -, -⟩ := Res.ok.inj h
    subst hw
    rfl
  | cons q t ih =>
    obtain ⟨c0, vd⟩ := q
    simp only [List.map_cons, List.mem_cons] at hc
    push_neg at hc
    obtain ⟨hne, hct⟩ := hc
    cases hd : addVoxel env w doc c0 vd.shape vd.color vd.appearance vd.name with
    | err e w2 doc2 ev2 =>
      simp only [addSeq, hd] at h
      cases h
    | ok a2 w2 doc2 ev2 =>
      simp only [addSeq, hd] at h
      rw [ih hct h, addVoxel_ok_lookup_ne hd c hne]

theorem addSeq_ok_mem {env : Env} {items : List (Coord × VoxelDef)} {w : World}
    {doc : Doc} {ev : List Event} {a : Unit} {w1 : World} {doc1 : Doc}
    {ev1 : List Event} (h : addSeq env items w doc ev = .ok a w1 doc1 ev1) :
    ∀ p ∈ items, p.1 ∈ w1.voxels.map Prod.fst := by
  induction items generalizing w doc ev with
  | nil => intro p hp; cases hp
  | cons q t ih =>
    obtain ⟨c, vd⟩ := q
    cases hd : addVoxel env w doc c vd.shape vd.color vd.appearance vd.name with
    | err e w2 doc2 ev2 =>
      simp only [addSeq, hd] at h
      cases h
    | ok a2 w2 doc2 ev2 =>
      simp only [addSeq, hd] at h
      intro p hp
      rcases List.mem_cons.mp hp with rfl | hp
      · obtain ⟨v3, hl3, -⟩ := addVoxel_ok_lookup_self hd
        rw [addSeq_ok_keys h]
        exact lookupA_mem_keys w2.voxels c v3 hl3
      · exact ih h p hp

theorem addSeq_ok_matched {env : Env} {items : List (Coord × VoxelDef)} {w : World}
    {doc : Doc} {ev : List Event} {a : Unit} {w1 : World} {doc1 : Doc}
    {ev1 : List Event} (hN : (items.map Prod.fst).Nodup)
    (h : addSeq env items w doc ev = .ok a w1 doc1 ev1) :
    ∀ p ∈ items, ∃ v, lookupA w1.voxels p.1 = some v ∧ voxelMatches v p.2 := by
  induction items generalizing w doc ev with
  | nil => intro p hp; cases hp
  | cons q t ih =>
    obtain ⟨c, vd⟩ := q
    simp only [List.map_cons, List.nodup_cons] at hN
    obtain ⟨hc, hN⟩ := hN
    cases hd : addVoxel env w doc c vd.shape vd.color vd.appearance vd.name with
    | err e w2 doc2 ev2 =>
      simp only [addSeq, hd] at h
      cases h
    | ok a2 w2 doc2 ev2 =>
      simp only [addSeq, hd] at h
      intro p hp
      rcases List.mem_cons.mp hp with rfl | hp
      · obtain ⟨v3, hl3, hm3⟩ := addVoxel_ok_lookup_self hd
        refine ⟨v3, ?_, hm3⟩
        rw [addSeq_ok_lookup_notin hc h]
        exact hl3
      · exact ih hN h p hp

theorem addSeq_noop (env : Env) (items : List (Coord × VoxelDef)) (w : World)
    (doc : Doc) (ev : List Event) :
    (∀ p ∈ items, ∃ v, lookupA w.voxels p.1 = some v ∧ voxelMatches v p.2) →
    addSeq env items w doc ev = .ok () w doc ev := by
  induction items with
  | nil => intro _; rfl
  | cons q t ih =>
    intro hall
    obtain ⟨c, vd⟩ := q
    obtain ⟨v, hl, hm⟩ := hall (c, vd) (List.mem_cons_self _ _)
    have hA := addVoxel_noop env w doc c v vd.shape vd.color vd.appearance vd.name hl hm
    simp only [addSeq, hA, List.append_nil]
    exact ih (fun p hp => hall p (List.mem_cons_of_mem _ hp))

/-! ### Properties of the two `update` loop branches -/

theorem updLoopP_ok_elim {env : Env} {items : List (Coord × VoxelDef)} {w : World}
    {doc : Doc} {ev : List Event} {r : Bool} {o : Option DialogState} {w1 : World}
    {doc1 : Doc} {ev1 : List Event}
    (h : updLoopP env items w doc ev = .ok (r, o) w1 doc1 ev1) :
    r = true ∧ o = none ∧ addSeq env items w doc ev = .ok () w1 doc1 ev1 := by
  unfold updLoopP at h
  split at h
  · cases h
  · rename_i a w2 doc2 ev2 hs
    obtain ⟨hro, hw, hdoc, hev⟩ := Res.ok.inj h
    obtain ⟨hr, ho⟩ := Prod.mk.inj hro
    subst hw hdoc hev
    exact ⟨hr.symm, ho.symm, hs⟩

theorem updLoopD_ok_shape {env : Env} {dlg : Dialog} {m i : Nat}
    {items : List (Coord × VoxelDef)} {w : World} {doc : Doc} {ev : List Event}
    {r : Bool} {o : Option DialogState} {w1 : World} {doc1 : Doc} {ev1 : List Event}
    (h : updLoopD env dlg m i items w doc ev = .ok (r, o) w1 doc1 ev1) :
    ∃ pv, o = some ⟨false, pv, m⟩ := by
  induction items generalizing i w doc ev with
  | nil =>
    obtain ⟨hro, -, -, -⟩ := Res.ok.inj h
    obtain ⟨-, ho⟩ := Prod.mk.inj hro
    exact ⟨i, ho.symm⟩
  | cons q t ih =>
    obtain ⟨c, vd⟩ := q
    unfold updLoopD at h
    split at h
    · obtain ⟨hro, -, -, -⟩ := Res.ok.inj h
      obtain ⟨-, ho⟩ := Prod.mk.inj hro
      exact ⟨i, ho.symm⟩
    · split at h
      · cases h
      · exact ih h

theorem updLoopD_ok_keys {env : Env} {dlg : Dialog} {m i : Nat}
    {items : List (Coord × VoxelDef)} {w : World} {doc : Doc} {ev : List Event}
    {r : Bool} {o : Option DialogState} {w1 : World} {doc1 : Doc} {ev1 : List Event}
    (h : updLoopD env dlg m i items w doc ev = .ok (r, o) w1 doc1 ev1) :
    ∀ x, x ∈ w1.voxels.map Prod.fst ↔ x ∈ w.voxels.map Prod.fst := by
  induction items generalizing i w doc ev with
  | nil =>
    obtain ⟨-, hw, -, -⟩ := Res.ok.inj h
    subst hw
    intro x; rfl
  | cons q t ih =>
    obtain ⟨c, vd⟩ := q
    unfold updLoopD at h
    split at h
    · obtain ⟨-, hw, -, -⟩ := Res.ok.inj h
      subst hw
      intro x; rfl
    · split at h
      · cases h
      · rename_i a2 w2 doc2 ev2 hd
        intro x
        rw [ih h x, addVoxel_ok_keys hd x]

theorem updLoopD_ok_true {env : Env} {dlg : Dialog} {m i : Nat}
    {items : List (Coord × VoxelDef)} {w : World} {doc : Doc} {ev : List Event}
    {o : Option DialogState} {w1 : World} {doc1 : Doc} {ev1 : List Event}
    (h : updLoopD env dlg m i items w doc ev = .ok (true, o) w1 doc1 ev1) :
    addSeq env items w doc ev = .ok () w1 doc1 ev1 ∧
      o = some ⟨false, i + items.length, m⟩ := by
  induction items generalizing i w doc ev with
  | nil =>
    obtain ⟨hro, hw, hdoc, hev⟩ := Res.ok.inj h
    obtain ⟨-, ho⟩ := Prod.mk.inj hro
    subst hw hdoc hev
    refine ⟨rfl, ?_⟩
    rw [← ho]
    simp
  | cons q t ih =>
    obtain ⟨c, vd⟩ := q
    unfold updLoopD at h
    split at h
    · obtain ⟨hro, -, -, -⟩ := Res.ok.inj h
      obtain ⟨hr, -⟩ := Prod.mk.inj hro
      cases hr
    · split at h
      · cases h
      · rename_i a2 w2 doc2 ev2 hd
        obtain ⟨hseq, ho⟩ := ih h
        refine ⟨by simp only [addSeq, hd]; exact hseq, ?_⟩
        rw [ho]
        simp only [List.length_cons]
        rw [show i + 1 + t.length = i + (t.length + 1) by omega]

theorem updLoopD_nocancel_elim {env : Env} {dlg : Dialog} {m i : Nat}
    {items : List (Coord × VoxelDef)} {w : World} {doc : Doc} {ev : List Event}
    {r : Bool} {o : Option DialogState} {w1 : World} {doc1 : Doc} {ev1 : List Event}
    (hnc : ∀ j < items.length, dlg.wasCancelled (i + j) = false)
    (h : updLoopD env dlg m i items w doc ev = .ok (r, o) w1 doc1 ev1) :
    r = true := by
  induction items generalizing i w doc ev with
  | nil =>
    obtain ⟨hro, -, -, -⟩ := Res.ok.inj h
    obtain ⟨hr, -⟩ := Prod.mk.inj hro
    exact hr.symm
  | cons q t ih =>
    obtain ⟨c, vd⟩ := q
    have h0 : dlg.wasCancelled i = false := by
      have := hnc 0 (by simp)
      rwa [Nat.add_zero] at this
    unfold updLoopD at h
    rw [if_neg (by simp [h0])] at h
    split at h
    · cases h
    · rename_i a2 w2 doc2 ev2 hd
      refine ih (fun j hj => ?_) h
      have := hnc (j + 1) (by simpa using Nat.succ_lt_succ hj)
      rwa [show i + (j + 1) = i + 1 + j by omega] at this

theorem updLoopD_cancel_elim {env : Env} {dlg : Dialog} {m : Nat} {k : Nat} :
    ∀ (i : Nat) (items : List (Coord × VoxelDef)) (w : World) (doc : Doc)
      (ev : List Event) {r : Bool} {o : Option DialogState} {w1 : World}
      {doc1 : Doc} {ev1 : List Event},
    k < items.length → dlg.wasCancelled (i + k) = true →
    (∀ j < k, dlg.wasCancelled (i + j) = false) →
    updLoopD env dlg m i items w doc ev = .ok (r, o) w1 doc1 ev1 →
    r = false ∧ o = some ⟨false, i + k, m⟩ ∧
      addSeq env (items.take k) w doc ev = .ok () w1 doc1 ev1 := by
  induction k with
  | zero =>
    intro i items w doc ev r o w1 doc1 ev1 hk hcan hprev h
    rw [Nat.add_zero] at hcan
    cases items with
    | nil => simp at hk
    | cons q t =>
      obtain ⟨c, vd⟩ := q
      unfold updLoopD at h
      rw [if_pos hcan] at h
      obtain ⟨hro, hw, hdoc, hev⟩ := Res.ok.inj h
      obtain ⟨hr, ho⟩ := Prod.mk.inj hro
      subst hw hdoc hev
      exact ⟨hr.symm, by rw [← ho, Nat.add_zero], rfl⟩
  | succ k ih =>
    intro i items w doc ev r o w1 doc1 ev1 hk hcan hprev h
    cases items with
    | nil => simp at hk
    | cons q t =>
      obtain ⟨c, vd⟩ := q
      have h0 : dlg.wasCancelled i = false := by
        have := hprev 0 (Nat.succ_pos k)
        rwa [Nat.add_zero] at this
      unfold updLoopD at h
      rw [if_neg (by simp [h0])] at h
      split at h
      · cases h
      · rename_i a2 w2 doc2 ev2 hd
        have hk2 : k < t.length := by simpa using Nat.lt_of_succ_lt_succ hk
        have hcan2 : dlg.wasCancelled (i + 1 + k) = true := by
          rwa [show i + 1 + k = i + (k + 1) by omega]
        have hprev2 : ∀ j < k, dlg.wasCancelled (i + 1 + j) = false := by
          intro j hj
          have := hprev (j + 1) (Nat.succ_lt_succ hj)
          rwa [show i + (j + 1) = i + 1 + j by omega] at this
        obtain ⟨hr, ho, hseq⟩ := ih (i + 1) t w2 doc2 (ev ++ ev2) hk2 hcan2 hprev2 h
        refine ⟨hr, ?_, ?_⟩
        · rw [ho, show i + 1 + k = i + (k + 1) by omega]
        · rw [List.take_succ_cons]
          simp only [addSeq, hd]
          exact hseq

/-! ### Properties of `update` -/

theorem update_ok_elim {env : Env} {w : World} {doc : Doc}
    {d : List (Coord × VoxelDef)} {pd : Option Dialog} {cfd : Option Nat}
    {o : Option DialogState} {w1 : World} {doc1 : Doc} {ev1 : List Event}
    (h : update env w doc d pd cfd = .ok (true, o) w1 doc1 ev1) :
    ∃ w2 doc2 ev2,
      deletePhase ((getCoordinates w).filter
        (fun c => !containsA (d.map Prod.fst) c)) w doc [] = .ok () w2 doc2 ev2 ∧
      addSeq env d w2 doc2 ev2 = .ok () w1 doc1 ev1 := by
  cases hdel : deletePhase ((getCoordinates w).filter
      (fun c => !containsA (d.map Prod.fst) c)) w doc [] with
  | err e w2 doc2 ev2 =>
    simp only [update, hdel] at h
    cases h
  | ok a2 w2 doc2 ev2 =>
    cases a2
    refine ⟨w2, doc2, ev2, rfl, ?_⟩
    cases pd with
    | none =>
      simp only [update, hdel] at h
      exact (updLoopP_ok_elim h).2.2
    | some dlg =>
      cases cfd with
      | none =>
        simp only [update, hdel] at h
        exact (updLoopD_ok_true h).1
      | some th =>
        simp only [update, hdel] at h
        cases hnc : numberOfChanges w2 d with
        | error e =>
          simp only [hnc] at h
          cases h
        | ok n =>
          simp only [hnc] at h
          by_cases hlt : n < th
          · rw [if_pos hlt] at h
            exact (updLoopP_ok_elim h).2.2
          · rw [if_neg hlt] at h
            exact (updLoopD_ok_true h).1

theorem update_ok_keys {env : Env} {w : World} {doc : Doc}
    {d : List (Coord × VoxelDef)} {pd : Option Dialog} {cfd : Option Nat}
    {o : Option DialogState} {w1 : World} {doc1 : Doc} {ev1 : List Event}
    (hN : (w.voxels.map Prod.fst).Nodup)
    (h : update env w doc d pd cfd = .ok (true, o) w1 doc1 ev1) :
    ∀ x, x ∈ w1.voxels.map Prod.fst ↔ x ∈ d.map Prod.fst := by
  obtain ⟨w2, doc2, ev2, hdel, hseq⟩ := update_ok_elim h
  intro x
  constructor
  · intro hx
    have h2 := (addSeq_ok_keys hseq x).mp hx
    obtain ⟨hkeys, -⟩ := deletePhase_ok_keys hN hdel
    obtain ⟨hxw, hxdel⟩ := (hkeys x).mp h2
    by_contra hxd
    apply hxdel
    rw [List.mem_filter]
    have hcf : containsA (d.map Prod.fst) x = false := by
      cases hcb : containsA (d.map Prod.fst) x
      · rfl
      · exact absurd ((containsA_iff _ _).mp hcb) hxd
    exact ⟨by simpa [getCoordinates] using hxw, by simp [hcf]⟩
  · intro hxd
    obtain ⟨p, hp, hpeq⟩ := List.mem_map.mp hxd
    have := addSeq_ok_mem hseq p hp
    rwa [hpeq] at this

theorem update_ok_matched {env : Env} {w : World} {doc : Doc}
    {d : List (Coord × VoxelDef)} {pd : Option Dialog} {cfd : Option Nat}
    {o : Option DialogState} {w1 : World} {doc1 : Doc} {ev1 : List Event}
    (hD : (d.map Prod.fst).Nodup)
    (h : update env w doc d pd cfd = .ok (true, o) w1 doc1 ev1) :
    ∀ p ∈ d, ∃ v, lookupA w1.voxels p.1 = some v ∧ voxelMatches v p.2 := by
  obtain ⟨w2, doc2, ev2, -, hseq⟩ := update_ok_elim h
  exact addSeq_ok_matched hD hseq

theorem update_dialog_elim {env : Env} {w : World} {doc : Doc}
    {d : List (Coord × VoxelDef)} {dlg : Dialog} {r : Bool}
    {o : Option DialogState} {w1 : World} {doc1 : Doc} {ev1 : List Event}
    (h : update env w doc d (some dlg) none = .ok (r, o) w1 doc1 ev1) :
    ∃ w2 doc2 ev2,
      deletePhase ((getCoordinates w).filter
        (fun c => !containsA (d.map Prod.fst) c)) w doc [] = .ok () w2 doc2 ev2 ∧
      updLoopD env dlg d.length 0 d w2 doc2 ev2 = .ok (r, o) w1 doc1 ev1 := by
  cases hdel : deletePhase ((getCoordinates w).filter
      (fun c => !containsA (d.map Prod.fst) c)) w doc [] with
  | err e w2 doc2 ev2 =>
    simp only [update, hdel] at h
    cases h
  | ok a2 w2 doc2 ev2 =>
    cases a2
    simp only [update, hdel] at h
    exact ⟨w2, doc2, ev2, rfl, h⟩

/-! ### The claims -/

/-- C1: the round-trip law fails on the code.  A non-cancelled `update(D)`
succeeds on a world already holding the matching cube, but
`get_current_world_def()` then raises `AttributeError` instead of returning
a definition structurally equal to `D`, because no `Voxel` class defines
the `shape` attribute the method reads. -/
theorem roundtrip_world_def_attribute_error :
    update exEnv exWorld exDoc exDef none none = .ok (true, none) exWorld exDoc [] ∧
    getCurrentWorldDef exWorld = .error .attributeError :=
  ⟨by decide, by decide⟩

/-- C2: after a successful (non-cancelled) `update(D)`, the coordinate set
of the world equals exactly the key set of `D`: coordinates absent from
`D` were deleted and every coordinate of `D` is present. -/
theorem update_exact_reconciliation (env : Env) (w : World) (doc : Doc)
    (d : List (Coord × VoxelDef)) (pd : Option Dialog) (cfd : Option Nat)
    (o : Option DialogState) (w1 : World) (doc1 : Doc) (ev1 : List Event)
    (hN : (getCoordinates w).Nodup)
    (h : update env w doc d pd cfd = .ok (true, o) w1 doc1 ev1) :
    ∀ x, x ∈ getCoordinates w1 ↔ x ∈ d.map Prod.fst :=
  update_ok_keys hN h

/-- C2 witness: updating `exWorld2` with `exDef` succeeds, keeps the origin
and drops the coordinate `(5, 0, 0)` that is absent from `exDef`. -/
theorem update_exact_reconciliation_witness :
    (((0, 0, 0) : Coord) ∈ getCoordinates exWorld ↔
      ((0, 0, 0) : Coord) ∈ exDef.map Prod.fst) ∧
    (((5, 0, 0) : Coord) ∈ getCoordinates exWorld ↔
      ((5, 0, 0) : Coord) ∈ exDef.map Prod.fst) :=
  ⟨update_exact_reconciliation exEnv exWorld2 exDoc exDef none none none exWorld exDoc
      [Event.deleteBody (5, 0, 0)] (by decide) (by decide) (0, 0, 0),
    update_exact_reconciliation exEnv exWorld2 exDoc exDef none none none exWorld exDoc
      [Event.deleteBody (5, 0, 0)] (by decide) (by decide) (5, 0, 0)⟩

/-- C3: rebuild-on-rescale fails on the code.  `set_grid_size` with the
current size is a complete no-op (no deletions, no creations), but with a
new size on a non-empty world it raises `AttributeError` — after already
having stored the new grid size — because `_rebuild` starts by calling
`get_current_world_def`, which reads the nonexistent `voxel.shape`. -/
theorem set_grid_size_rebuild_attribute_error :
    setGridSize exEnv exWorld exDoc 1 none = .ok none exWorld exDoc [] ∧
    setGridSize exEnv exWorld exDoc 2 none =
      .err .attributeError { exWorld with gridSize := 2 } exDoc [] :=
  ⟨by decide, by decide⟩

/-- C4: `update(D)` is idempotent — after a successful (non-cancelled)
`update(D)`, running `update(D)` again (eagerly) returns `True`, leaves the
world and the document exactly as they were, and performs zero geometry
mutations (every setter takes its no-op branch). -/
theorem update_idempotent (env : Env) (w : World) (doc : Doc)
    (d : List (Coord × VoxelDef)) (pd : Option Dialog) (cfd : Option Nat)
    (o : Option DialogState) (w1 : World) (doc1 : Doc) (ev1 : List Event)
    (hN : (getCoordinates w).Nodup) (hD : (d.map Prod.fst).Nodup)
    (h : update env w doc d pd cfd = .ok (true, o) w1 doc1 ev1) :
    update env w1 doc1 d none none = .ok (true, none) w1 doc1 [] := by
  have hkeys := update_ok_keys hN h
  have hmatched := update_ok_matched hD h
  have hdels : (getCoordinates w1).filter (fun c => !containsA (d.map Prod.fst) c) = [] := by
    rw [List.filter_eq_nil_iff]
    intro c hc
    have hcd : c ∈ d.map Prod.fst := (hkeys c).mp hc
    simp [(containsA_iff (d.map Prod.fst) c).mpr hcd]
  have hseq : addSeq env d w1 doc1 [] = .ok () w1 doc1 [] :=
    addSeq_noop env d w1 doc1 [] hmatched
  simp only [update, hdels, deletePhase, updLoopP, hseq]

/-- C4 witness: updating `exWorld` with its own definition is already a
fixed point, so the repeated update returns `True` with no events. -/
theorem update_idempotent_witness :
    update exEnv exWorld exDoc exDef none none = .ok (true, none) exWorld exDoc [] :=
  update_idempotent exEnv exWorld exDoc exDef none none none exWorld exDoc []
    (by decide) (by decide) (by decide)

/-- C5: the shape-change scenario fails on the code.  Changing only the
shape at the origin from cube to sphere deletes the existing voxel and adds
a new sphere body to the component, but the constructor then raises
`AttributeError` (`_create_body` reads `self._name` before
`DirectVoxel.__init__` has assigned it), so `update` propagates the
exception and the world map has lost the entry instead of holding the new
sphere. -/
theorem shape_change_create_attribute_error :
    update exEnv exWorld exDoc exDefSphere none none =
      .err .attributeError { exWorld with voxels := [] } exDoc
        [Event.deleteBody (0, 0, 0), Event.createBody (0, 0, 0)] := by decide

/-- C6 counterexample: a deletion path of the world propagates a
geometry-kernel failure.  With a stale cube at the origin, `add_voxel` with
shape "sphere" calls `voxel.delete()` outside any try/except, and the
`RuntimeError` escapes to the caller with the world unchanged. -/
theorem deletion_error_propagates_counterexample :
    addVoxel exEnv exWorldStale exDoc (0, 0, 0) "sphere" (some (255, 0, 0, 255))
      "Prism-256" "voxel" = .err .runtimeError exWorldStale exDoc [] := by decide

/-- C6 (amended): kernel failures while deleting a body are caught and
downgraded to a logged warning plus a `False` return inside `delete_voxel`,
so `delete_voxel`, `clear` and the deletion phase of `update` never raise;
but the delete-existing step of `add_voxel` on a shape change is not
guarded and propagates the RuntimeError of the kernel before any mutation. -/
theorem deletion_error_handling_amended :
    (∀ (w : World) (doc : Doc) (c : Coord), (deleteVoxel w doc c).raised = false) ∧
    (∀ (w : World) (doc : Doc), (clearAll w doc).raised = false) ∧
    (∀ (w : World) (doc : Doc) (d : List (Coord × VoxelDef)),
      (deletePhase ((getCoordinates w).filter
        (fun c => !containsA (d.map Prod.fst) c)) w doc []).raised = false) ∧
    (∀ (env : Env) (w : World) (doc : Doc) (c : Coord) (v : Voxel) (cls : VoxelClass)
      (shape : String) (color : Option Color) (app nm : String),
      getVoxel w c = some v → classOfShape shape = some cls → v.cls ≠ cls →
      v.stale = true →
      addVoxel env w doc c shape color app nm = .err .runtimeError w doc []) := by
  refine ⟨deleteVoxel_not_raised, fun w doc => deletePhase_not_raised _ _ _ _,
    fun w doc d => deletePhase_not_raised _ _ _ _, ?_⟩
  intro env w doc c v cls shape color app nm hl hcs hne hstale
  have hvd : voxelDelete v = .error .runtimeError := by
    simp [voxelDelete, hstale]
  simp only [getVoxel] at hl
  simp only [addVoxel, hcs, hl]
  rw [if_pos hne]
  simp only [hvd]

/-- C6 witness: the amended propagation statement evaluated for a stale
cube at `(1, 2, 3)` overwritten by a sphere definition. -/
theorem deletion_error_handling_amended_witness :
    addVoxel exEnv exWorldStaleB exDoc (1, 2, 3) "sphere" none "Oak" "n" =
      .err .runtimeError exWorldStaleB exDoc [] :=
  deletion_error_handling_amended.2.2.2 exEnv exWorldStaleB exDoc (1, 2, 3) exStale
    .directSphere "sphere" none "Oak" "n" (by decide) (by decide) (by decide) rfl

/-- C7: updating under a progress dialog (no change threshold) hides the
dialog on exit; the resulting coordinate set is a subset of the keys of
`D`; if cancellation is never signalled, `update` returns `True`; and if
cancellation is first signalled at poll `k`, `update` returns `False`, the
hidden dialog shows `k` processed items, and the `k` processed coordinates
are reconciled to their definitions. -/
theorem update_cancellation (env : Env) (w : World) (doc : Doc)
    (d : List (Coord × VoxelDef)) (dlg : Dialog) (r : Bool)
    (o : Option DialogState) (w1 : World) (doc1 : Doc) (ev1 : List Event)
    (hN : (getCoordinates w).Nodup) (hD : (d.map Prod.fst).Nodup)
    (h : update env w doc d (some dlg) none = .ok (r, o) w1 doc1 ev1) :
    (∃ pv, o = some ⟨false, pv, d.length⟩) ∧
    (∀ x ∈ getCoordinates w1, x ∈ d.map Prod.fst) ∧
    ((∀ j < d.length, dlg.wasCancelled j = false) → r = true) ∧
    (∀ k, k < d.length → dlg.wasCancelled k = true →
      (∀ j < k, dlg.wasCancelled j = false) →
      r = false ∧ o = some ⟨false, k, d.length⟩ ∧
      ∀ p ∈ d.take k, ∃ v, lookupA w1.voxels p.1 = some v ∧ voxelMatches v p.2) := by
  obtain ⟨w2, doc2, ev2, hdel, hloop⟩ := update_dialog_elim h
  obtain ⟨hkeys2, -⟩ := deletePhase_ok_keys hN hdel
  refine ⟨updLoopD_ok_shape hloop, ?_, ?_, ?_⟩
  · intro x hx
    have hx2 := (updLoopD_ok_keys hloop x).mp hx
    obtain ⟨hxw, hxdel⟩ := (hkeys2 x).mp hx2
    by_contra hxd
    apply hxdel
    rw [List.mem_filter]
    have hcf : containsA (d.map Prod.fst) x = false := by
      cases hcb : containsA (d.map Prod.fst) x
      · rfl
      · exact absurd ((containsA_iff _ _).mp hcb) hxd
    exact ⟨hxw, by simp [hcf]⟩
  · intro hnc
    refine updLoopD_nocancel_elim (fun j hj => ?_) hloop
    rw [Nat.zero_add]
    exact hnc j hj
  · intro k hk hcan hprev
    obtain ⟨hr, ho, hseq⟩ := updLoopD_cancel_elim 0 d w2 doc2 ev2 hk
      (by rw [Nat.zero_add]; exact hcan)
      (fun j hj => by rw [Nat.zero_add]; exact hprev j hj) hloop
    refine ⟨hr, by rw [ho, Nat.zero_add], ?_⟩
    have hNd : ((d.take k).map Prod.fst).Nodup := by
      rw [List.map_take]
      exact hD.sublist (List.take_sublist k (d.map Prod.fst))
    exact addSeq_ok_matched hNd hseq

/-- C7 witness: cancelling at the first poll leaves the processed set empty
and every remaining coordinate inside the keys of the definition. -/
theorem update_cancellation_witness : ((0, 0, 0) : Coord) ∈ exDef.map Prod.fst :=
  (update_cancellation exEnv exWorld2 exDoc exDef exDlgCancel false
      (some ⟨false, 0, 1⟩) exWorld exDoc [Event.deleteBody (5, 0, 0)]
      (by decide) (by decide) (by decide)).2.1 (0, 0, 0) (by decide)

/-- C8: construction with a null color fails on the code.  `Voxel.__init__`
executes `self._color = tuple(color)`, which raises `TypeError` on `None`
before any body is created or appearance resolved, contradicting the
documented base-appearance behavior of the `None` branch in
`_get_appearance`. -/
theorem null_color_construction_type_error :
    makeVoxel exEnv .directCube (0, 0, 0) 1 none "Prism-256" exDoc =
      (.error .typeError, exDoc, false) := by decide

/-- C9: `add_voxel` with a shape token other than "cube" or "sphere" raises
`ValueError` immediately, before any mutation: the world, the document and
the event trace are untouched. -/
theorem add_voxel_invalid_shape (env : Env) (w : World) (doc : Doc) (c : Coord)
    (shape : String) (color : Option Color) (app nm : String)
    (h1 : shape ≠ "cube") (h2 : shape ≠ "sphere") :
    addVoxel env w doc c shape color app nm = .err .valueError w doc [] := by
  have hcs : classOfShape shape = none := by
    unfold classOfShape
    rw [if_neg h1, if_neg h2]
  simp only [addVoxel, hcs]

/-- C9 witness: the invalid shape token "pyramid" on a populated world. -/
theorem add_voxel_invalid_shape_witness :
    addVoxel exEnv exWorld exDoc (0, 0, 0) "pyramid" none "Oak" "n" =
      .err .valueError exWorld exDoc [] :=
  add_voxel_invalid_shape exEnv exWorld exDoc (0, 0, 0) "pyramid" none "Oak" "n"
    (by decide) (by decide)

/-- C10: `delete_voxel` on a voxel whose kernel delete raises still pops
the entry (a subsequent `get_voxel` returns `None`) while returning
`False`; and on an absent coordinate it returns `False` without touching
any state. -/
theorem delete_voxel_stale_and_absent :
    (∀ (w : World) (doc : Doc) (c : Coord) (v : Voxel),
      (getCoordinates w).Nodup → getVoxel w c = some v → v.stale = true →
      deleteVoxel w doc c = .ok false { w with voxels := eraseA w.voxels c } doc [] ∧
        getVoxel { w with voxels := eraseA w.voxels c } c = none) ∧
    (∀ (w : World) (doc : Doc) (c : Coord), getVoxel w c = none →
      deleteVoxel w doc c = .ok false w doc []) := by
  constructor
  · intro w doc c v hN hl hstale
    have hvd : voxelDelete v = .error .runtimeError := by
      simp [voxelDelete, hstale]
    simp only [getVoxel] at hl
    constructor
    · simp only [deleteVoxel, hl, hvd]
    · exact lookupA_eraseA_self w.voxels c hN
  · intro w doc c hl
    simp only [getVoxel] at hl
    simp only [deleteVoxel, hl]

/-- C10 witness: deleting the stale cube at the origin and deleting from an
empty world. -/
theorem delete_voxel_stale_and_absent_witness :
    (deleteVoxel exWorldStale exDoc (0, 0, 0) =
      .ok false { exWorldStale with voxels := eraseA exWorldStale.voxels (0, 0, 0) }
        exDoc [] ∧
      getVoxel { exWorldStale with voxels := eraseA exWorldStale.voxels (0, 0, 0) }
        (0, 0, 0) = none) ∧
    deleteVoxel exWorldEmpty exDoc (0, 0, 0) = .ok false exWorldEmpty exDoc [] :=
  ⟨delete_voxel_stale_and_absent.1 exWorldStale exDoc (0, 0, 0) exStale
      (by decide) (by decide) rfl,
    delete_voxel_stale_and_absent.2 exWorldEmpty exDoc (0, 0, 0) (by decide)⟩

end Voxler
